import Mathlib

/-!
# LofiLoop audio core: shallow embedding and verification

This file embeds the scheduling/synthesis core of the LofiLoop step
sequencer in Lean 4 and settles the specification claims against it.

The embedding covers:
* the multi-track engine (`trackEngine.ts`): `Step`/`Track`/`BeatProject`
  data model, the step-mutation operations `toggleStep`, `setStepNote`,
  `setStepVelocity`, the per-step dispatch `scheduleStep` and `stopPlayback`;
* the legacy A/B-pattern lookahead scheduler (`scheduler.ts`):
  `getSwingOffset`, `shouldPlayTrack`, `scheduleStep`, `startScheduler`'s
  tick loop and `stopScheduler`;
* the legacy offline exporter (`audioExport.ts`): `exportToWav`'s event
  scheduling loop and `audioBufferToWav`;
* the note-frequency tables of `synth.ts` and of the offline exporter, and
  the instrument registry lookup `getInstrument`;
* the BPM clamping performed by the `TransportBar` component.

Real numbers in the source (Web Audio clock times, gains, tempo) are
modelled as rationals; all source constants (0.05, 0.1, 0.025 s, 16 steps)
are exact in that model.
-/

namespace LofiLoop

/-! ## List helper: replace a single index

`steps.map((s, i) => i === k ? f(s) : s)` from the TypeScript sources is
embedded as `updateAt k f steps`. -/

def updateAt {α : Type} (k : ℕ) (f : α → α) : List α → List α
  | [] => []
  | a :: as =>
    match k with
    | 0 => f a :: as
    | j + 1 => a :: updateAt j f as

/-! ## Track engine data model (`trackEngine.ts`) -/

/-- One slot in a track's timeline (`interface Step`). -/
structure Step where
  active : Bool
  note : Option String
  velocity : ℚ
  deriving DecidableEq, Repr

/-- A track: a fixed-length sequence of steps bound to one instrument
(`interface Track`). -/
structure Track where
  id : String
  name : String
  instrumentId : String
  steps : List Step
  volume : ℚ
  pan : ℚ
  muted : Bool
  solo : Bool
  deriving DecidableEq, Repr

/-- Project-level configuration (`interface BeatProject`). -/
structure BeatProject where
  id : String
  name : String
  bpm : ℚ
  swing : ℚ
  stepsPerBar : ℕ
  bars : ℕ
  masterVolume : ℚ
  key : String
  scale : String
  tracks : List Track
  createdAt : ℕ
  updatedAt : ℕ
  deriving DecidableEq, Repr

/-- `toggleStep(project, trackId, stepIndex)`.  `Date.now()` is passed in
explicitly as `now`. -/
def toggleStep (p : BeatProject) (trackId : String) (stepIndex : ℕ) (now : ℕ) :
    BeatProject :=
  { p with
    tracks := p.tracks.map fun t =>
      if t.id = trackId then
        { t with steps := updateAt stepIndex (fun s => { s with active := !s.active }) t.steps }
      else t
    updatedAt := now }

/-- `setStepNote(project, trackId, stepIndex, note)`. -/
def setStepNote (p : BeatProject) (trackId : String) (stepIndex : ℕ)
    (note : Option String) (now : ℕ) : BeatProject :=
  { p with
    tracks := p.tracks.map fun t =>
      if t.id = trackId then
        { t with steps := updateAt stepIndex (fun s => { s with note := note, active := note ≠ none }) t.steps }
      else t
    updatedAt := now }

/-- `setStepVelocity(project, trackId, stepIndex, velocity)`. -/
def setStepVelocity (p : BeatProject) (trackId : String) (stepIndex : ℕ)
    (velocity : ℚ) (now : ℕ) : BeatProject :=
  { p with
    tracks := p.tracks.map fun t =>
      if t.id = trackId then
        { t with steps := updateAt stepIndex (fun s => { s with velocity := velocity }) t.steps }
      else t
    updatedAt := now }

/-! ## Legacy A/B-pattern scheduler data model (`scheduler.ts`) -/

/-- Per-track mixer settings (one entry of `interface TrackSettings`). -/
structure TrackCfg where
  muted : Bool
  solo : Bool
  volume : ℚ
  deriving DecidableEq, Repr

/-- `interface TrackSettings`: the five fixed tracks. -/
structure TrackSettings where
  kick : TrackCfg
  snare : TrackCfg
  hat : TrackCfg
  clap : TrackCfg
  synth : TrackCfg
  deriving DecidableEq, Repr

/-- The five track names of the legacy engine (`keyof TrackSettings`). -/
inductive TrackName where
  | kick | snare | hat | clap | synth
  deriving DecidableEq, Repr

/-- The four drum voices (`type DrumType`). -/
inductive DrumType where
  | kick | snare | hat | clap
  deriving DecidableEq, Repr

def DrumType.toName : DrumType → TrackName
  | .kick => .kick
  | .snare => .snare
  | .hat => .hat
  | .clap => .clap

def TrackSettings.get (ts : TrackSettings) : TrackName → TrackCfg
  | .kick => ts.kick
  | .snare => ts.snare
  | .hat => ts.hat
  | .clap => ts.clap
  | .synth => ts.synth

/-- `Object.values(trackSettings)` in insertion order. -/
def TrackSettings.values (ts : TrackSettings) : List TrackCfg :=
  [ts.kick, ts.snare, ts.hat, ts.clap, ts.synth]

/-- `Object.values(trackSettings).some(t => t.solo)`. -/
def anySolo (ts : TrackSettings) : Bool :=
  ts.values.any (·.solo)

/-- `shouldPlayTrack(trackName, trackSettings)` (`scheduler.ts`). -/
def shouldPlayTrack (name : TrackName) (ts : TrackSettings) : Bool :=
  if anySolo ts then (ts.get name).solo else !(ts.get name).muted

/-- `interface DrumPattern`: one 16-slot boolean row per drum. -/
structure DrumPattern where
  kick : List Bool
  snare : List Bool
  hat : List Bool
  clap : List Bool
  deriving DecidableEq, Repr

def DrumPattern.get (p : DrumPattern) : DrumType → List Bool
  | .kick => p.kick
  | .snare => p.snare
  | .hat => p.hat
  | .clap => p.clap

/-- `interface SynthPattern`: `null` becomes `none`. -/
structure SynthPattern where
  notes : List (Option String)
  deriving DecidableEq, Repr

/-- Synth parameters; only `volume` participates in event amplitudes, the
envelope/filter fields shape the per-note node graph and are not read by
the scheduling loops. -/
structure SynthParams where
  volume : ℚ
  deriving DecidableEq, Repr

/-- `stepDuration = 60 / bpm / 4` (sixteenth notes). -/
def stepDuration (bpm : ℚ) : ℚ := 60 / bpm / 4

/-- `getSwingOffset(step, swing, stepDuration)` (`scheduler.ts`). -/
def getSwingOffset (step : ℕ) (swing d : ℚ) : ℚ :=
  if step % 2 = 1 then swing / 100 * d * (1 / 2) else 0

/-- One synthesis call made by the legacy engine, as the tuple the spec's
render/live-parity property talks about: `(step, instrument, audio-clock
time, amplitude)`. -/
structure LEvent where
  step : ℕ
  instr : TrackName
  time : ℚ
  amp : ℚ
  deriving DecidableEq, Repr

/-- JavaScript truthiness of a `string | null` note: non-null and
non-empty. -/
def noteTruthy : Option String → Bool
  | some s => s ≠ ""
  | none => false

/-- The drum part of `scheduleStep` (`scheduler.ts`): fire `drumType` when
its pattern slot is set and `shouldPlayTrack` allows it; the amplitude is
the track's volume passed to `playDrum`. -/
def drumEvent (pattern : DrumPattern) (ts : TrackSettings) (step : ℕ)
    (time : ℚ) (dt : DrumType) : Option LEvent :=
  if (pattern.get dt).getD step false && shouldPlayTrack dt.toName ts then
    some ⟨step, dt.toName, time, (ts.get dt.toName).volume⟩
  else none

/-- `scheduleStep(step, time, drumPatterns, synthPatterns, currentPattern,
trackSettings, synthParams, bpm)` (`scheduler.ts` lines 74–107), returning
the synthesis calls it makes, in call order: the four drums then the
synth.  The synth amplitude is `synthParams.volume * trackSettings.synth.volume`. -/
def scheduleStepEvents (step : ℕ) (time : ℚ) (pattern : DrumPattern)
    (synthPattern : SynthPattern) (ts : TrackSettings) (params : SynthParams) :
    List LEvent :=
  ([DrumType.kick, DrumType.snare, DrumType.hat, DrumType.clap].filterMap
      (drumEvent pattern ts step time))
    ++ (let note := synthPattern.notes.getD step none
        if noteTruthy note && shouldPlayTrack .synth ts then
          [⟨step, .synth, time, params.volume * ts.synth.volume⟩]
        else [])

/-! ## Legacy lookahead scheduler tick loop (`startScheduler`, `scheduler.ts`)

Module-level state `nextStepTime`, `currentStep`, `lastScheduledStep` becomes
`SchedState`; the `setInterval` callback body becomes `runTick`, executed at
an arbitrary sequence of audio-clock readings (`getCurrentTime()` values). -/

/-- The A or B pattern bank. -/
inductive PatternAB where
  | A | B
  deriving DecidableEq, Repr

/-- The arguments captured by `startScheduler`'s closure. -/
structure SchedCfg where
  bpm : ℚ
  swing : ℚ
  drumA : DrumPattern
  drumB : DrumPattern
  synthA : SynthPattern
  synthB : SynthPattern
  currentPattern : PatternAB
  ts : TrackSettings
  params : SynthParams
  deriving Repr

def SchedCfg.drum (cfg : SchedCfg) : DrumPattern :=
  match cfg.currentPattern with
  | .A => cfg.drumA
  | .B => cfg.drumB

def SchedCfg.synth (cfg : SchedCfg) : SynthPattern :=
  match cfg.currentPattern with
  | .A => cfg.synthA
  | .B => cfg.synthB

/-- `LOOKAHEAD = 0.1` seconds. -/
def lookahead : ℚ := 1 / 10

/-- Module state of `scheduler.ts` while running. -/
structure SchedState where
  nextStepTime : ℚ
  currentStep : ℕ
  lastScheduledStep : ℤ
  deriving DecidableEq, Repr

/-- One iteration bound for the `while (nextStepTime < currentTime + LOOKAHEAD)`
loop of a tick at clock reading `t`: the loop body runs while the guard
holds, and `fuel` bounds the number of iterations.  `runTick` below supplies
enough fuel to drain the window completely, so this is the faithful
while-loop semantics.  The result collects the `(step, scheduledTime)`
pairs passed to `scheduleStep`. -/
def tickLoop (cfg : SchedCfg) (t : ℚ) : ℕ → SchedState → SchedState × List (ℕ × ℚ)
  | 0, s => (s, [])
  | fuel + 1, s =>
    if s.nextStepTime < t + lookahead then
      let d := stepDuration cfg.bpm
      let swingOffset := getSwingOffset s.currentStep cfg.swing d
      let scheduledTime := s.nextStepTime + swingOffset
      let fire := (s.currentStep : ℤ) ≠ s.lastScheduledStep
      let dispatched : List (ℕ × ℚ) := if fire then [(s.currentStep, scheduledTime)] else []
      let last' : ℤ := if fire then (s.currentStep : ℤ) else s.lastScheduledStep
      let s' : SchedState :=
        ⟨s.nextStepTime + d, (s.currentStep + 1) % 16, last'⟩
      let rest := tickLoop cfg t fuel s'
      (rest.1, dispatched ++ rest.2)
    else (s, [])

/-- Iterations needed for the tick at clock reading `t` to leave the
lookahead window: `⌈(t + lookahead − nextStepTime) / stepDuration⌉`. -/
def neededFuel (cfg : SchedCfg) (t : ℚ) (s : SchedState) : ℕ :=
  (⌈(t + lookahead - s.nextStepTime) / stepDuration cfg.bpm⌉).toNat

/-- One `setInterval` callback execution at clock reading `t`. -/
def runTick (cfg : SchedCfg) (t : ℚ) (s : SchedState) : SchedState × List (ℕ × ℚ) :=
  tickLoop cfg t (neededFuel cfg t s) s

/-- A run of the scheduler over a sequence of clock readings. -/
def runTicks (cfg : SchedCfg) : List ℚ → SchedState → SchedState × List (ℕ × ℚ)
  | [], s => (s, [])
  | t :: ts, s =>
    let r₁ := runTick cfg t s
    let r₂ := runTicks cfg ts r₁.1
    (r₂.1, r₁.2 ++ r₂.2)

/-- `startScheduler` initialisation: `nextStepTime = getCurrentTime() + 0.05`,
`currentStep = 0`, `lastScheduledStep = -1`. -/
def initState (t0 : ℚ) : SchedState := ⟨t0 + 1 / 20, 0, -1⟩

/-- The `(step, scheduledTime)` dispatches a fresh scheduler makes over a
sequence of ticks. -/
def liveDispatches (cfg : SchedCfg) (t0 : ℚ) (ticks : List ℚ) : List (ℕ × ℚ) :=
  (runTicks cfg ticks (initState t0)).2

/-- The synthesis calls a fresh scheduler makes over a sequence of ticks. -/
def liveEvents (cfg : SchedCfg) (t0 : ℚ) (ticks : List ℚ) : List LEvent :=
  (liveDispatches cfg t0 ticks).flatMap fun st =>
    scheduleStepEvents st.1 st.2 cfg.drum cfg.synth cfg.ts cfg.params

/-! ## Legacy offline exporter event loop (`exportToWav`, `audioExport.ts`) -/

/-- The event-scheduling loop of `exportToWav(bpm, drumPattern, synthPattern,
trackSettings, synthParams, loops)` (`audioExport.ts` lines 255–285): for
each loop and each of the 16 steps, `time = (loop*16 + step)*stepDuration
+ 0.1`, drums fire when the pattern slot is set and the track is not muted
(solo flags are not consulted, and no swing offset is added), the synth
fires on a truthy note when the synth track is not muted.  Amplitudes match
the live engine's formulas. -/
def exportEvents (bpm : ℚ) (drum : DrumPattern) (synth : SynthPattern)
    (ts : TrackSettings) (params : SynthParams) (loops : ℕ) : List LEvent :=
  let d := stepDuration bpm
  (List.range loops).flatMap fun loop =>
    (List.range 16).flatMap fun step =>
      let time : ℚ := (loop * 16 + step : ℕ) * d + 1 / 10
      ([DrumType.kick, DrumType.snare, DrumType.hat, DrumType.clap].filterMap
          fun dt =>
            if (drum.get dt).getD step false && !(ts.get dt.toName).muted then
              some ⟨step, dt.toName, time, (ts.get dt.toName).volume⟩
            else none)
        ++ (let note := synth.notes.getD step none
            if noteTruthy note && !ts.synth.muted then
              [⟨step, .synth, time, params.volume * ts.synth.volume⟩]
            else [])

/-! ## Track-engine per-step dispatch (`scheduleStep`, `trackEngine.ts`) -/

/-- A synthesis call of the multi-track engine: the arguments of
`instrument.play(ctx, trackGain, scheduledTime, note, velocity, duration)`
together with the track-gain value `track.volume * (velocity || 0.8)`. -/
structure TEvent where
  instrumentId : String
  time : ℚ
  note : Option String
  amp : ℚ
  velocity : ℚ
  duration : ℚ
  deriving DecidableEq, Repr

/-- The instrument ids registered in `INSTRUMENTS` (`instruments.ts`);
`getInstrument` succeeds exactly on these. -/
def INSTRUMENT_IDS : List String :=
  ["808-kick", "808-bass", "sub-bass", "trap-kick", "snare", "clap",
   "closed-hat", "open-hat", "rimshot", "crash", "pluck", "keys", "pad", "lead"]

/-- `note || undefined`: empty or null note becomes `none`. -/
def noteOrUndefined : Option String → Option String
  | some s => if s = "" then none else some s
  | none => none

/-- The body of the per-track closure in `scheduleStep` after the mute/solo
filter (`trackEngine.ts` lines 122–149): skip inactive or missing steps and
unknown instruments, otherwise fire with gain
`track.volume * (stepData.velocity || 0.8)` and duration `stepDuration * 0.9`. -/
def trackStepFire (d scheduledTime : ℚ) (wrapped : ℕ) (tr : Track) : Option TEvent :=
  match tr.steps.get? wrapped with
  | none => none
  | some sd =>
    if !sd.active then none
    else if tr.instrumentId ∈ INSTRUMENT_IDS then
      some ⟨tr.instrumentId, scheduledTime, noteOrUndefined sd.note,
            tr.volume * (if sd.velocity = 0 then 4 / 5 else sd.velocity),
            sd.velocity, d * (9 / 10)⟩
    else none

/-- The per-track closure of `scheduleStep` (`trackEngine.ts` lines 117–121):
`if (track.muted) return; if (hasSolo && !track.solo) return;` then fire. -/
def trackStepEvent (hasSolo : Bool) (d scheduledTime : ℚ) (wrapped : ℕ)
    (tr : Track) : Option TEvent :=
  if tr.muted then none
  else if hasSolo && !tr.solo then none
  else trackStepFire d scheduledTime wrapped tr

/-- `scheduleStep(ctx, project, step, time)` (`trackEngine.ts` lines 100–151):
wrap the step index, add the swing offset for odd wrapped steps, resolve
solo, and dispatch each track. -/
def trackScheduleStep (p : BeatProject) (step : ℕ) (time : ℚ) : List TEvent :=
  let totalSteps := p.stepsPerBar * p.bars
  let wrapped := step % totalSteps
  let d := stepDuration p.bpm
  let swingOffset : ℚ := if wrapped % 2 = 1 then p.swing / 100 * d * (1 / 2) else 0
  let scheduledTime := time + swingOffset
  let hasSolo := p.tracks.any (·.solo)
  p.tracks.filterMap (trackStepEvent hasSolo d scheduledTime wrapped)

/-! ## Stop semantics (`stopScheduler` in `scheduler.ts`,
`stopPlayback` in `trackEngine.ts`) -/

/-- Module state of `scheduler.ts` relevant to `stopScheduler`: the timer
handle, `currentStep`, `lastScheduledStep` and whether an `onStepChange`
callback is registered. -/
structure LegacySchedulerMod where
  timerActive : Bool
  currentStep : ℤ
  lastScheduledStep : ℤ
  callbackRegistered : Bool
  deriving DecidableEq, Repr

/-- `stopScheduler()` (`scheduler.ts` lines 161–171): clear the timer, set
`currentStep = 0` and `lastScheduledStep = -1`, and call `onStepChange(-1)`
when registered.  The second component lists the callback invocations. -/
def stopScheduler (s : LegacySchedulerMod) : LegacySchedulerMod × List ℤ :=
  ({ s with timerActive := false, currentStep := 0, lastScheduledStep := -1 },
   if s.callbackRegistered then [-1] else [])

/-- `getCurrentStep()` (`scheduler.ts`). -/
def getCurrentStep (s : LegacySchedulerMod) : ℤ := s.currentStep

/-- Module state of `trackEngine.ts` relevant to `stopPlayback`. -/
structure TrackEngineMod where
  timerActive : Bool
  isPlaying : Bool
  currentStep : ℤ
  callbackRegistered : Bool
  deriving DecidableEq, Repr

/-- `stopPlayback()` (`trackEngine.ts` lines 187–195): clear the timer, set
`isPlaying = false` and `currentStep = -1`, and call `stepCallback(-1)` when
registered. -/
def stopPlayback (s : TrackEngineMod) : TrackEngineMod × List ℤ :=
  ({ s with timerActive := false, isPlaying := false, currentStep := -1 },
   if s.callbackRegistered then [-1] else [])

/-! ## BPM clamping (`TransportBar.tsx`) and note-frequency fallbacks -/

/-- The clamp applied by the TransportBar's BPM number input
(`TransportBar.tsx` line 269): `Math.min(180, Math.max(60, v))`. -/
def clampBpmInput (v : ℚ) : ℚ := min 180 (max 60 v)

/-- Modelled from the spec: clamping to the range `[60, 200]` the claim and
§8 of the spec describe, for comparison with `clampBpmInput`. -/
def specClampBpm (v : ℚ) : ℚ := min 200 (max 60 v)

/-- `NOTE_FREQUENCIES` of `synth.ts` (C3–C5). -/
def NOTE_FREQUENCIES : List (String × ℚ) :=
  [("C3", 130.81), ("C#3", 138.59), ("D3", 146.83), ("D#3", 155.56), ("E3", 164.81),
   ("F3", 174.61), ("F#3", 185.00), ("G3", 196.00), ("G#3", 207.65), ("A3", 220.00),
   ("A#3", 233.08), ("B3", 246.94), ("C4", 261.63), ("C#4", 277.18), ("D4", 293.66),
   ("D#4", 311.13), ("E4", 329.63), ("F4", 349.23), ("F#4", 369.99), ("G4", 392.00),
   ("G#4", 415.30), ("A4", 440.00), ("A#4", 466.16), ("B4", 493.88), ("C5", 523.25)]

/-- `getNoteFrequency(note)` (`synth.ts`): table lookup with `|| 220`
fallback (every table value is nonzero, so `||` is exactly
default-on-missing). -/
def getNoteFrequency (note : String) : ℚ :=
  (NOTE_FREQUENCIES.lookup note).getD 220

/-- `noteToFreq` of `playInstrumentOffline` (`beatExporter.ts`, C1–A3). -/
def offlineNoteToFreq : List (String × ℚ) :=
  [("C1", 32.70), ("C#1", 34.65), ("D1", 36.71), ("D#1", 38.89), ("E1", 41.20),
   ("F1", 43.65), ("F#1", 46.25), ("G1", 49.00), ("G#1", 51.91), ("A1", 55.00),
   ("A#1", 58.27), ("B1", 61.74),
   ("C2", 65.41), ("C#2", 69.30), ("D2", 73.42), ("D#2", 77.78), ("E2", 82.41),
   ("F2", 87.31), ("F#2", 92.50), ("G2", 98.00), ("G#2", 103.83), ("A2", 110.00),
   ("A#2", 116.54), ("B2", 123.47),
   ("C3", 130.81), ("C#3", 138.59), ("D3", 146.83), ("D#3", 155.56), ("E3", 164.81),
   ("F3", 174.61), ("F#3", 185.00), ("G3", 196.00), ("G#3", 207.65), ("A3", 220.00)]

/-- `const freq = note ? (noteToFreq[note] || 65.41) : 65.41` of
`playInstrumentOffline`: the offline per-context default is 65.41 Hz. -/
def offlineNoteFreq (note : Option String) : ℚ :=
  match note with
  | some n => if n = "" then 65.41 else (offlineNoteToFreq.lookup n).getD 65.41
  | none => 65.41

/-! ## WAV encoding (`audioBufferToWav`, `audioExport.ts` / `exporter.ts`) -/

/-- A rendered audio buffer: per-channel sample lists over a frame count. -/
structure AudioBuffer where
  numberOfChannels : ℕ
  sampleRate : ℕ
  length : ℕ
  channels : List (List ℚ)
  deriving Repr

/-- Little-endian bytes of `DataView.setUint16(·, n, true)`. -/
def u16le (n : ℕ) : List ℕ := [n % 256, n / 256 % 256]

/-- Little-endian bytes of `DataView.setUint32(·, n, true)`. -/
def u32le (n : ℕ) : List ℕ :=
  [n % 256, n / 256 % 256, n / 2 ^ 16 % 256, n / 2 ^ 24 % 256]

/-- `writeString(view, ·, str)`: the character codes of an ASCII tag. -/
def asciiBytes (s : String) : List ℕ := s.toList.map Char.toNat

/-- The 44-byte RIFF/WAVE header written by `audioBufferToWav` at offsets
0–43, in writing order: RIFF size, WAVE, fmt chunk (PCM tag 1, channel
count, sample rate, byte rate, block align, 16-bit depth) and the data
chunk length `buffer.length * blockAlign`. -/
def wavHeader (numChannels sampleRate frames : ℕ) : List ℕ :=
  let blockAlign := numChannels * 2
  let dataLength := frames * blockAlign
  asciiBytes "RIFF" ++ u32le (36 + dataLength) ++ asciiBytes "WAVE"
    ++ asciiBytes "fmt " ++ u32le 16 ++ u16le 1 ++ u16le numChannels
    ++ u32le sampleRate ++ u32le (sampleRate * blockAlign) ++ u16le blockAlign
    ++ u16le 16 ++ asciiBytes "data" ++ u32le dataLength

/-- `Math.max(-1, Math.min(1, sample))`. -/
def clampSample (s : ℚ) : ℚ := max (-1) (min 1 s)

/-- Truncation toward zero, the integer conversion `DataView.setInt16`
applies to its number argument. -/
def truncQ (q : ℚ) : ℤ := if 0 ≤ q then ⌊q⌋ else ⌈q⌉

/-- `sample < 0 ? sample * 0x8000 : sample * 0x7fff` after clamping, as the
integer the view stores. -/
def sampleToInt16 (s : ℚ) : ℤ :=
  let c := clampSample s
  truncQ (if c < 0 then c * 32768 else c * 32767)

/-- Two's-complement little-endian bytes of `setInt16`. -/
def i16le (v : ℤ) : List ℕ :=
  let u := (v % 65536).toNat
  [u % 256, u / 256]

/-- The interleaved sample bytes: frame-major, channel-minor, as in the
`for (i) for (channel)` loop of `audioBufferToWav`. -/
def wavDataBytes (channels : List (List ℚ)) (frames : ℕ) : List ℕ :=
  (List.range frames).flatMap fun i =>
    channels.flatMap fun ch => i16le (sampleToInt16 (ch.getD i 0))

/-- `audioBufferToWav(buffer)` as the byte list of the produced blob. -/
def audioBufferToWav (b : AudioBuffer) : List ℕ :=
  wavHeader b.numberOfChannels b.sampleRate b.length
    ++ wavDataBytes b.channels b.length

/-- Re-decode the 44-byte WAV header from an encoded byte stream: peel the
RIFF/WAVE/fmt preamble and return `(audioFormat, numChannels, sampleRate,
bitsPerSample, dataLength)` read little-endian from their fixed offsets
(20, 22, 24, 34 and 40). -/
def decodeWavHeader (l : List ℕ) : Option (ℕ × ℕ × ℕ × ℕ × ℕ) :=
  match l with
  | _r0 :: _r1 :: _r2 :: _r3 :: _sz0 :: _sz1 :: _sz2 :: _sz3 ::
    _w0 :: _w1 :: _w2 :: _w3 :: _f0 :: _f1 :: _f2 :: _f3 ::
    _c0 :: _c1 :: _c2 :: _c3 :: t0 :: t1 :: ch0 :: ch1 ::
    sr0 :: sr1 :: sr2 :: sr3 :: _br0 :: _br1 :: _br2 :: _br3 ::
    _ba0 :: _ba1 :: bd0 :: bd1 :: _d0 :: _d1 :: _d2 :: _d3 ::
    dl0 :: dl1 :: dl2 :: dl3 :: _rest =>
    some (t0 + 256 * t1, ch0 + 256 * ch1,
      sr0 + 256 * sr1 + 2 ^ 16 * sr2 + 2 ^ 24 * sr3,
      bd0 + 256 * bd1,
      dl0 + 256 * dl1 + 2 ^ 16 * dl2 + 2 ^ 24 * dl3)
  | _ => none

/-! ## Frame predicate for the step-mutation operations -/

/-- Everything claim C10 requires a step mutation on `(trackId, stepIndex)`
to leave untouched: all project fields except `tracks` and `updatedAt`,
every track whose id differs from `trackId`, and every step at an index
other than `stepIndex` (tracked per index through `List.get?`). -/
def FramePreserved (p q : BeatProject) (trackId : String) (stepIndex : ℕ) : Prop :=
  q.id = p.id ∧ q.name = p.name ∧ q.bpm = p.bpm ∧ q.swing = p.swing ∧
  q.stepsPerBar = p.stepsPerBar ∧ q.bars = p.bars ∧
  q.masterVolume = p.masterVolume ∧ q.key = p.key ∧ q.scale = p.scale ∧
  q.createdAt = p.createdAt ∧
  q.tracks.length = p.tracks.length ∧
  (∀ j, (p.tracks.get? j).map Track.id ≠ some trackId →
    q.tracks.get? j = p.tracks.get? j) ∧
  (∀ j k, k ≠ stepIndex →
    (q.tracks.get? j).map (fun t => t.steps.get? k)
      = (p.tracks.get? j).map (fun t => t.steps.get? k))

/-! ## Concrete witness data -/

/-- A drum row with exactly slot `k` set. -/
def rowOnly (k : ℕ) : List Bool := (List.range 16).map fun i => decide (i = k)

/-- An all-empty drum row. -/
def rowOff : List Bool := List.replicate 16 false

/-- An empty 16-slot synth pattern. -/
def synthOff : SynthPattern := ⟨List.replicate 16 none⟩

/-- The default mixer settings of `createDefaultTrackSettings`. -/
def defaultTs : TrackSettings :=
  ⟨⟨false, false, 4 / 5⟩, ⟨false, false, 3 / 5⟩, ⟨false, false, 2 / 5⟩,
   ⟨false, false, 1 / 2⟩, ⟨false, false, 1 / 2⟩⟩

/-- `defaultTs` with the snare soloed. -/
def soloSnareTs : TrackSettings :=
  { defaultTs with snare := ⟨false, true, 3 / 5⟩ }

/-- Scheduler arguments: BPM 120, swing 40 %, kick on step 1 only. -/
def cfgSwing : SchedCfg :=
  ⟨120, 40, ⟨rowOnly 1, rowOff, rowOff, rowOff⟩, ⟨rowOff, rowOff, rowOff, rowOff⟩,
   synthOff, synthOff, .A, defaultTs, ⟨1 / 2⟩⟩

/-- Scheduler arguments: BPM 120, no swing, hat on step 0, snare soloed. -/
def cfgSolo : SchedCfg :=
  ⟨120, 0, ⟨rowOff, rowOff, rowOnly 0, rowOff⟩, ⟨rowOff, rowOff, rowOff, rowOff⟩,
   synthOff, synthOff, .A, soloSnareTs, ⟨1 / 2⟩⟩

/-- A tick at clock reading 0.1 s: from `t0 = 0` the lookahead window then
covers exactly the first two steps at BPM 120. -/
def twoStepTicks : List ℚ := [1 / 10]

/-- The live events normalised to offsets from the first step's base time
`t0 + 0.05`, paired as the spec's `(step, instrument, offset, amplitude)`
tuples. -/
def liveOffsets (cfg : SchedCfg) (t0 : ℚ) (ticks : List ℚ) :
    List (ℕ × TrackName × ℚ × ℚ) :=
  (liveEvents cfg t0 ticks).map fun e => (e.step, e.instr, e.time - (t0 + 1 / 20), e.amp)

/-- The offline events normalised to offsets from the first step's base
time `0.1`. -/
def exportOffsets (bpm : ℚ) (drum : DrumPattern) (synth : SynthPattern)
    (ts : TrackSettings) (params : SynthParams) (loops : ℕ) :
    List (ℕ × TrackName × ℚ × ℚ) :=
  (exportEvents bpm drum synth ts params loops).map fun e =>
    (e.step, e.instr, e.time - 1 / 10, e.amp)

/-- A muted track whose solo flag is set, with every step active. -/
def soloMutedTrack : Track :=
  ⟨"t1", "Snare", "snare", List.replicate 16 ⟨true, none, 4 / 5⟩, 4 / 5, 0, true, true⟩

/-- One-track project exercising the mute/solo resolution of the
multi-track engine. -/
def pc2 : BeatProject :=
  ⟨"p1", "New Beat", 140, 0, 16, 1, 4 / 5, "C", "minor", [soloMutedTrack], 0, 0⟩

/-- A melodic track whose step 0 is active with note C4. -/
def melTrack : Track :=
  ⟨"t1", "Keys", "keys", [⟨true, some "C4", 4 / 5⟩], 4 / 5, 0, false, false⟩

/-- A second, untouched track. -/
def otherTrack : Track :=
  ⟨"t2", "Snare", "snare", [⟨true, none, 1 / 2⟩], 3 / 5, 0, false, false⟩

/-- Two-track project for the step-mutation claims. -/
def pc5 : BeatProject :=
  ⟨"p5", "New Beat", 140, 10, 16, 1, 4 / 5, "C", "minor", [melTrack, otherTrack], 3, 4⟩

/-- A running legacy-scheduler module state. -/
def wLegacy : LegacySchedulerMod := ⟨true, 5, 4, true⟩

/-- A running track-engine module state. -/
def wEngine : TrackEngineMod := ⟨true, true, 5, true⟩

/-- A stereo two-frame buffer with one out-of-range sample per direction. -/
def wBuf : AudioBuffer := ⟨2, 44100, 2, [[1 / 2, -2], [0, 3 / 2]]⟩

/-! ## Scheduler run characterisation -/

/-- The `(step, scheduledTime)` pair the scheduler dispatches for the
`k`-th step overall of a run started at clock reading `t0`: step `k mod 16`
at the unswung grid time `t0 + 0.05 + k · stepDuration` plus the swing
offset of its (wrapped) index. -/
def dispatchAt (cfg : SchedCfg) (t0 : ℚ) (k : ℕ) : ℕ × ℚ :=
  (k % 16,
   t0 + 1 / 20 + k * stepDuration cfg.bpm
     + getSwingOffset (k % 16) cfg.swing (stepDuration cfg.bpm))

/-- The scheduler-state invariant after `k` dispatched steps. -/
def SchedInv (cfg : SchedCfg) (t0 : ℚ) (k : ℕ) (s : SchedState) : Prop :=
  s.nextStepTime = t0 + 1 / 20 + k * stepDuration cfg.bpm ∧
  s.currentStep = k % 16 ∧
  s.lastScheduledStep = if k = 0 then (-1 : ℤ) else ((k - 1) % 16 : ℕ)

/-! ## Helper lemmas -/

theorem updateAt_get? {α : Type} (k : ℕ) (f : α → α) (l : List α) (j : ℕ) :
    (updateAt k f l).get? j = if j = k then (l.get? j).map f else l.get? j := by
  induction l generalizing k j with
  | nil => simp [updateAt]
  | cons a as ih =>
    cases k with
    | zero =>
      cases j with
      | zero => simp [updateAt]
      | succ j => simp [updateAt]
    | succ k =>
      cases j with
      | zero => simp [updateAt]
      | succ j =>
        simp only [updateAt, List.get?_cons_succ, ih k j]
        by_cases h : j = k <;> simp [h]

theorem updateAt_length {α : Type} (k : ℕ) (f : α → α) (l : List α) :
    (updateAt k f l).length = l.length := by
  induction l generalizing k with
  | nil => simp [updateAt]
  | cons a as ih =>
    cases k with
    | zero => rfl
    | succ k => simpa [updateAt] using ih k

/-- The step-map applied to the matching track by each mutation preserves
the steps at every other index. -/
theorem mutation_tracks_get? (p : BeatProject) (trackId : String)
    (g : Track → Track) (j : ℕ) :
    ((p.tracks.map fun t => if t.id = trackId then g t else t).get? j)
      = (p.tracks.get? j).map fun t => if t.id = trackId then g t else t :=
  List.get?_map _ _ _

/-! ## Claim C10: frame effect of the step mutations -/

theorem frame_of_stepMap (p : BeatProject) (trackId : String) (stepIndex : ℕ)
    (now : ℕ) (f : Step → Step) :
    FramePreserved p
      { p with
        tracks := p.tracks.map fun t =>
          if t.id = trackId then
            { t with steps := updateAt stepIndex f t.steps }
          else t
        updatedAt := now } trackId stepIndex := by
  refine ⟨rfl, rfl, rfl, rfl, rfl, rfl, rfl, rfl, rfl, rfl, by simp, ?_, ?_⟩
  · intro j hj
    rw [List.get?_map]
    cases h : p.tracks.get? j with
    | none => rfl
    | some t =>
      rw [h] at hj
      have hid : ¬t.id = trackId := by
        intro he
        exact hj (by simp [he])
      simp [hid]
  · intro j k hk
    rw [List.get?_map]
    cases h : p.tracks.get? j with
    | none => rfl
    | some t =>
      simp only [Option.map_some']
      congr 1
      by_cases hid : t.id = trackId
      · rw [if_pos hid]
        show (updateAt stepIndex f t.steps).get? k = t.steps.get? k
        rw [updateAt_get?]
        simp [hk]
      · rw [if_neg hid]

/-- C10: `toggleStep`, `setStepNote` and `setStepVelocity` each return a
project in which every track other than the targeted one, every step of the
targeted track other than the targeted index, and every project field other
than `tracks` and `updatedAt` are unchanged; the input project value is a
pure value and is not mutated. -/
theorem step_mutations_frame (p : BeatProject) (trackId : String)
    (stepIndex : ℕ) (note : Option String) (velocity : ℚ) (now : ℕ) :
    FramePreserved p (toggleStep p trackId stepIndex now) trackId stepIndex ∧
    FramePreserved p (setStepNote p trackId stepIndex note now) trackId stepIndex ∧
    FramePreserved p (setStepVelocity p trackId stepIndex velocity now) trackId stepIndex :=
  ⟨frame_of_stepMap p trackId stepIndex now _,
   frame_of_stepMap p trackId stepIndex now _,
   frame_of_stepMap p trackId stepIndex now _⟩

/-- Witness for C10 at a concrete project: the non-targeted track and the
project tempo survive a `toggleStep` on track `"t1"`, step 0. -/
theorem step_mutations_frame_witness :
    (toggleStep pc5 "t1" 0 9).bpm = pc5.bpm ∧
    (toggleStep pc5 "t1" 0 9).tracks.get? 1 = pc5.tracks.get? 1 := by
  obtain ⟨h, -, -⟩ := step_mutations_frame pc5 "t1" 0 none 1 9
  exact ⟨h.2.2.1, h.2.2.2.2.2.2.2.2.2.2.2.1 1 (by decide)⟩

/-! ## Claim C5: the note/active invariant under step mutations -/

/-- Counterexample to C5: toggling the active melodic step (note C4) of
track `"t1"` turns `active` off but leaves the note at C4 — it is not
cleared to `null` as the claim states. -/
theorem toggleStep_keeps_note_cex :
    (((toggleStep pc5 "t1" 0 0).tracks.get? 0).map fun t =>
        (t.steps.get? 0).map fun s => (s.active, s.note))
      = some (some (false, some "C4")) ∧
    (some "C4" : Option String) ≠ none := by
  constructor
  · rfl
  · decide

/-- C5 amended: `setStepNote` leaves the step with
`active = (note ≠ null)` and stores the note; `toggleStep` negates
`active` on the targeted step of the targeted track but leaves the note
unchanged on every step of every track (it does not clear notes). -/
theorem step_mutation_note_active (p : BeatProject) (trackId : String)
    (stepIndex : ℕ) (note : Option String) (now : ℕ) (j : ℕ) :
    ((p.tracks.get? j).map Track.id = some trackId →
      ((setStepNote p trackId stepIndex note now).tracks.get? j).map
          (fun t => (t.steps.get? stepIndex).map fun s => (s.active, s.note))
        = (p.tracks.get? j).map fun t =>
            (t.steps.get? stepIndex).map fun _ => (note.isSome, note)) ∧
    (((toggleStep p trackId stepIndex now).tracks.get? j).map
        (fun t => (t.steps.get? stepIndex).map Step.note)
      = (p.tracks.get? j).map fun t => (t.steps.get? stepIndex).map Step.note) ∧
    ((p.tracks.get? j).map Track.id = some trackId →
      ((toggleStep p trackId stepIndex now).tracks.get? j).map
          (fun t => (t.steps.get? stepIndex).map Step.active)
        = (p.tracks.get? j).map fun t =>
            (t.steps.get? stepIndex).map fun s => !s.active) := by
  refine ⟨?_, ?_, ?_⟩
  · intro hid
    show ((p.tracks.map _).get? j).map _ = _
    rw [List.get?_map]
    cases h : p.tracks.get? j with
    | none => rfl
    | some t =>
      rw [h] at hid
      have ht : t.id = trackId := by
        simpa using hid
      simp only [Option.map_some']
      congr 1
      rw [if_pos ht]
      show ((updateAt stepIndex _ t.steps).get? stepIndex).map _ = _
      rw [updateAt_get?, if_pos rfl]
      cases t.steps.get? stepIndex with
      | none => rfl
      | some s =>
        cases note <;> rfl
  · show ((p.tracks.map _).get? j).map _ = _
    rw [List.get?_map]
    cases h : p.tracks.get? j with
    | none => rfl
    | some t =>
      simp only [Option.map_some']
      congr 1
      by_cases ht : t.id = trackId
      · rw [if_pos ht]
        show ((updateAt stepIndex _ t.steps).get? stepIndex).map _ = _
        rw [updateAt_get?, if_pos rfl]
        cases t.steps.get? stepIndex with
        | none => rfl
        | some s => rfl
      · rw [if_neg ht]
  · intro hid
    show ((p.tracks.map _).get? j).map _ = _
    rw [List.get?_map]
    cases h : p.tracks.get? j with
    | none => rfl
    | some t =>
      rw [h] at hid
      have ht : t.id = trackId := by
        simpa using hid
      simp only [Option.map_some']
      congr 1
      rw [if_pos ht]
      show ((updateAt stepIndex _ t.steps).get? stepIndex).map _ = _
      rw [updateAt_get?, if_pos rfl]
      cases t.steps.get? stepIndex with
      | none => rfl
      | some s => rfl

/-- Witness for the amended C5 at the concrete project `pc5`. -/
theorem step_mutation_note_active_witness :
    ((setStepNote pc5 "t1" 0 (some "E4") 0).tracks.get? 0).map
        (fun t => (t.steps.get? 0).map fun s => (s.active, s.note))
      = some (some (true, some "E4")) ∧
    ((toggleStep pc5 "t1" 0 0).tracks.get? 0).map
        (fun t => (t.steps.get? 0).map Step.note)
      = some (some (some "C4")) := by
  obtain ⟨h1, h2, -⟩ := step_mutation_note_active pc5 "t1" 0 (some "E4") 0 0
  refine ⟨?_, ?_⟩
  · rw [h1 (by rfl)]
    rfl
  · rw [h2]
    rfl

/-! ## Claim C2: mute/solo resolution -/

/-- Counterexample to C2: in the multi-track engine a track with
`muted = true` and `solo = true` does NOT play — `scheduleStep` dispatches
nothing for `pc2` although its only track is soloed, its step is active and
its instrument is known, because the mute check precedes the solo check. -/
theorem muted_solo_track_silent_cex :
    trackScheduleStep pc2 0 0 = [] ∧
    pc2.tracks.any (·.solo) = true ∧
    (pc2.tracks.get? 0).map Track.muted = some true ∧
    trackStepFire (stepDuration pc2.bpm) 0 0 soloMutedTrack ≠ none := by
  refine ⟨rfl, rfl, rfl, ?_⟩
  decide

/-- C2 amended: in the legacy scheduler (`shouldPlayTrack`) the rule holds
as claimed — with any solo set a track plays iff its own solo flag is true,
ignoring its mute flag; with no solo, iff it is not muted.  In the
multi-track engine mute takes precedence: a muted track never plays even
when soloed; an unmuted track is dispatched iff no solo is set or its own
solo flag is true. -/
theorem solo_mute_resolution (ts : TrackSettings) (name : TrackName)
    (hs : Bool) (d sch : ℚ) (w : ℕ) (tr : Track) :
    ((anySolo ts = true → shouldPlayTrack name ts = (ts.get name).solo) ∧
     (anySolo ts = false → shouldPlayTrack name ts = !(ts.get name).muted)) ∧
    ((tr.muted = true → trackStepEvent hs d sch w tr = none) ∧
     (hs = true → tr.solo = false → trackStepEvent hs d sch w tr = none) ∧
     (tr.muted = false → (hs = false ∨ tr.solo = true) →
       trackStepEvent hs d sch w tr = trackStepFire d sch w tr)) := by
  refine ⟨⟨?_, ?_⟩, ?_, ?_, ?_⟩
  · intro h
    simp [shouldPlayTrack, h]
  · intro h
    simp [shouldPlayTrack, h]
  · intro h
    simp [trackStepEvent, h]
  · intro h1 h2
    by_cases hm : tr.muted
    · simp [trackStepEvent, hm]
    · simp [trackStepEvent, hm, h1, h2]
  · intro h1 h2
    rcases h2 with h2 | h2 <;> simp [trackStepEvent, h1, h2]

/-- Witness for the amended C2: with the snare soloed, the legacy engine
plays exactly the soloed track even when it is also muted, and the
multi-track engine silences the muted-and-soloed track of `pc2`. -/
theorem solo_mute_resolution_witness :
    shouldPlayTrack .snare { soloSnareTs with snare := ⟨true, true, 3 / 5⟩ } = true ∧
    trackStepEvent true (3 / 8) 0 0 soloMutedTrack = none := by
  constructor
  · have h :=
      ((solo_mute_resolution { soloSnareTs with snare := ⟨true, true, 3 / 5⟩ }
        .snare true (3 / 8) 0 0 soloMutedTrack).1).1 (by decide)
    rw [h]
    rfl
  · exact ((solo_mute_resolution soloSnareTs .snare true (3 / 8) 0 0
      soloMutedTrack).2).1 rfl

/-! ## Claim C6: stop semantics -/

/-- Counterexample to C6: the legacy `stopScheduler` resets `currentStep`
to 0, not to the sentinel −1, so a subsequent `getCurrentStep()` reports
step 0 rather than "no playhead". -/
theorem stopScheduler_step_zero_cex :
    (stopScheduler wLegacy).1.currentStep = 0 ∧
    getCurrentStep (stopScheduler wLegacy).1 ≠ -1 := by
  exact ⟨rfl, by decide⟩

/-- C6 amended: stopping from any state cancels the periodic tick in both
engines and invokes the registered step callback exactly once with −1; the
multi-track engine's `stopPlayback` resets its current step to the sentinel
−1, but the legacy `stopScheduler` resets its step to 0 (its read-back
`getCurrentStep` then reports step 0, and the −1 sentinel is only delivered
through the callback). -/
theorem stop_semantics (s₁ : LegacySchedulerMod) (s₂ : TrackEngineMod) :
    ((stopScheduler s₁).1.timerActive = false ∧
     (stopScheduler s₁).1.currentStep = 0 ∧
     (stopScheduler s₁).1.lastScheduledStep = -1 ∧
     (s₁.callbackRegistered = true → (stopScheduler s₁).2 = [-1])) ∧
    ((stopPlayback s₂).1.timerActive = false ∧
     (stopPlayback s₂).1.isPlaying = false ∧
     (stopPlayback s₂).1.currentStep = -1 ∧
     (s₂.callbackRegistered = true → (stopPlayback s₂).2 = [-1])) := by
  refine ⟨⟨rfl, rfl, rfl, ?_⟩, rfl, rfl, rfl, ?_⟩
  · intro h
    simp [stopScheduler, h]
  · intro h
    simp [stopPlayback, h]

/-- Witness for the amended C6 at concrete running states. -/
theorem stop_semantics_witness :
    (stopScheduler wLegacy).2 = [-1] ∧ (stopPlayback wEngine).1.currentStep = -1 := by
  obtain ⟨h1, h2⟩ := stop_semantics wLegacy wEngine
  exact ⟨h1.2.2.2 rfl, h2.2.2.1⟩

/-! ## Claim C7: BPM clamping -/

/-- Counterexample to C7: the BPM control clamps to `[60, 180]`, not to the
documented `[60, 200]` — the input 190 is forced to 180 although it lies in
the claimed range. -/
theorem clampBpm_range_cex :
    clampBpmInput 190 = 180 ∧ specClampBpm 190 = 190 ∧
    clampBpmInput 190 ≠ specClampBpm 190 := by
  refine ⟨?_, ?_, ?_⟩ <;> norm_num [clampBpmInput, specClampBpm]

/-- C7 amended: the TransportBar's BPM number input clamps its value to
`[60, 180]` (not `[60, 200]`); the timing engine itself applies no
clamping, and for every value coming through the clamp the scheduler's
`stepDuration = 60 / bpm / 4` is strictly positive, so its divisor is
never zero on that path. -/
theorem clampBpm_bounds (v : ℚ) :
    60 ≤ clampBpmInput v ∧ clampBpmInput v ≤ 180 ∧
    0 < stepDuration (clampBpmInput v) := by
  have h60 : (60 : ℚ) ≤ clampBpmInput v := by
    unfold clampBpmInput
    exact le_min (by norm_num) (le_max_left _ _)
  have h180 : clampBpmInput v ≤ 180 := min_le_left _ _
  refine ⟨h60, h180, ?_⟩
  unfold stepDuration
  positivity

/-! ## Claim C8: totality under bad musical input -/

/-- C8: step dispatch is total on bad input — an unknown note name falls
back to the fixed default frequency (220 Hz in the live synth table,
65.41 Hz in the offline exporter's per-context table), and a track whose
instrument id is not registered produces no event from the per-track
dispatch; all embedded dispatch functions are total, so no scheduling tick
can throw. -/
theorem bad_input_defaults (n : String) (hs : Bool) (d sch : ℚ) (w : ℕ)
    (tr : Track) :
    (NOTE_FREQUENCIES.lookup n = none → getNoteFrequency n = 220) ∧
    (offlineNoteToFreq.lookup n = none → offlineNoteFreq (some n) = 65.41) ∧
    (offlineNoteFreq none = 65.41) ∧
    (tr.instrumentId ∉ INSTRUMENT_IDS → trackStepEvent hs d sch w tr = none) := by
  refine ⟨?_, ?_, rfl, ?_⟩
  · intro h
    simp [getNoteFrequency, h]
  · intro h
    by_cases he : n = ""
    · simp [offlineNoteFreq, he]
    · simp [offlineNoteFreq, he, h]
  · intro h
    unfold trackStepEvent trackStepFire
    by_cases hm : tr.muted
    · simp [hm]
    · by_cases hsolo : hs && !tr.solo
      · simp [hm, hsolo]
      · cases hstep : tr.steps.get? w with
        | none => simp [hm, hsolo, hstep]
        | some sd =>
          by_cases ha : sd.active
          · simp [hm, hsolo, hstep, ha, h]
          · simp [hm, hsolo, hstep, ha]

/-- Witness for C8: the unknown note "H9" falls back to 220 (live) and
65.41 (offline), and a track with instrument id "theremin" is a silent
no-op. -/
theorem bad_input_defaults_witness :
    getNoteFrequency "H9" = 220 ∧
    offlineNoteFreq (some "H9") = 65.41 ∧
    trackStepEvent false 1 0 0 { melTrack with instrumentId := "theremin" } = none := by
  obtain ⟨h1, h2, -, h3⟩ :=
    bad_input_defaults "H9" false 1 0 0 { melTrack with instrumentId := "theremin" }
  exact ⟨h1 (by decide), h2 (by decide), h3 (by decide)⟩

/-! ## Claims C3 and C4: the lookahead tick loop -/

theorem tickLoop_succ_of_guard (cfg : SchedCfg) (t : ℚ) (fuel : ℕ)
    (s : SchedState) (hg : s.nextStepTime < t + lookahead)
    (hfire : (s.currentStep : ℤ) ≠ s.lastScheduledStep) :
    tickLoop cfg t (fuel + 1) s =
      ((tickLoop cfg t fuel
          ⟨s.nextStepTime + stepDuration cfg.bpm, (s.currentStep + 1) % 16,
           (s.currentStep : ℤ)⟩).1,
       (s.currentStep,
        s.nextStepTime + getSwingOffset s.currentStep cfg.swing (stepDuration cfg.bpm))
         :: (tickLoop cfg t fuel
              ⟨s.nextStepTime + stepDuration cfg.bpm, (s.currentStep + 1) % 16,
               (s.currentStep : ℤ)⟩).2) := by
  simp [tickLoop, hg, hfire]

theorem tickLoop_succ_of_exit (cfg : SchedCfg) (t : ℚ) (fuel : ℕ)
    (s : SchedState) (hg : ¬s.nextStepTime < t + lookahead) :
    tickLoop cfg t (fuel + 1) s = (s, []) := by
  simp [tickLoop, hg]

/-- The scheduler's step/`lastScheduledStep` guard always fires when the
invariant holds: after `k` dispatches the current step differs from the
last scheduled one. -/
theorem sched_guard_fires (k : ℕ) :
    ((k % 16 : ℕ) : ℤ) ≠ (if k = 0 then (-1 : ℤ) else ((k - 1) % 16 : ℕ)) := by
  by_cases hk0 : k = 0
  · subst hk0
    decide
  · rw [if_neg hk0]
    have : k % 16 ≠ (k - 1) % 16 := by omega
    exact_mod_cast this

theorem tickLoop_spec (cfg : SchedCfg) (t0 t : ℚ) (fuel : ℕ) :
    ∀ (s : SchedState) (k : ℕ), SchedInv cfg t0 k s →
      ∃ m, SchedInv cfg t0 (k + m) (tickLoop cfg t fuel s).1 ∧
        (tickLoop cfg t fuel s).2 = (List.range' k m).map (dispatchAt cfg t0) := by
  induction fuel with
  | zero =>
    intro s k hk
    exact ⟨0, by simpa [tickLoop] using hk, by simp [tickLoop]⟩
  | succ fuel ih =>
    intro s k hk
    obtain ⟨hnext, hcur, hlast⟩ := hk
    by_cases hg : s.nextStepTime < t + lookahead
    · have hfire : (s.currentStep : ℤ) ≠ s.lastScheduledStep := by
        rw [hcur, hlast]
        exact sched_guard_fires k
      have hinv' : SchedInv cfg t0 (k + 1)
          ⟨s.nextStepTime + stepDuration cfg.bpm, (s.currentStep + 1) % 16,
           (s.currentStep : ℤ)⟩ := by
        refine ⟨?_, ?_, ?_⟩
        · rw [hnext]
          push_cast
          ring
        · rw [hcur]
          show (k % 16 + 1) % 16 = (k + 1) % 16
          omega
        · rw [hcur]
          simp
      obtain ⟨m, hminv, hmout⟩ := ih _ (k + 1) hinv'
      refine ⟨m + 1, ?_, ?_⟩
      · rw [tickLoop_succ_of_guard cfg t fuel s hg hfire]
        show SchedInv cfg t0 (k + (m + 1)) _
        have : k + (m + 1) = k + 1 + m := by omega
        rw [this]
        exact hminv
      · rw [tickLoop_succ_of_guard cfg t fuel s hg hfire]
        have hr : List.range' k (m + 1) = k :: List.range' (k + 1) m :=
          List.range'_succ k m 1
        show (s.currentStep,
            s.nextStepTime + getSwingOffset s.currentStep cfg.swing (stepDuration cfg.bpm))
            :: (tickLoop cfg t fuel
                ⟨s.nextStepTime + stepDuration cfg.bpm, (s.currentStep + 1) % 16,
                 (s.currentStep : ℤ)⟩).2
          = (List.range' k (m + 1)).map (dispatchAt cfg t0)
        rw [hr, List.map_cons, hmout, hcur, hnext]
        rfl
    · refine ⟨0, ?_, ?_⟩
      · rw [tickLoop_succ_of_exit cfg t fuel s hg]
        exact ⟨by simpa using hnext, hcur, hlast⟩
      · rw [tickLoop_succ_of_exit cfg t fuel s hg]
        simp

/-- `neededFuel` is an exact bound for the while loop: with positive step
duration, after `runTick` the loop guard `nextStepTime < t + LOOKAHEAD` is
false, so the fuel-based `tickLoop` is the faithful semantics of the
unbounded `while` loop — the tick drains its whole lookahead window. -/
theorem runTick_drains_window (cfg : SchedCfg) (t : ℚ)
    (hd : 0 < stepDuration cfg.bpm) :
    ∀ (fuel : ℕ) (s : SchedState),
      (⌈(t + lookahead - s.nextStepTime) / stepDuration cfg.bpm⌉).toNat ≤ fuel →
      ¬(tickLoop cfg t fuel s).1.nextStepTime < t + lookahead := by
  intro fuel
  induction fuel with
  | zero =>
    intro s hfuel
    have hceil : ⌈(t + lookahead - s.nextStepTime) / stepDuration cfg.bpm⌉ ≤ 0 := by
      omega
    have hx : (t + lookahead - s.nextStepTime) / stepDuration cfg.bpm ≤ 0 := by
      have := Int.ceil_le.mp hceil
      exact_mod_cast this
    have hnum : t + lookahead - s.nextStepTime ≤ 0 := by
      by_contra hpos
      push_neg at hpos
      have : 0 < (t + lookahead - s.nextStepTime) / stepDuration cfg.bpm :=
        div_pos hpos hd
      linarith
    show ¬(tickLoop cfg t 0 s).1.nextStepTime < t + lookahead
    simp only [tickLoop]
    linarith
  | succ fuel ih =>
    intro s hfuel
    by_cases hg : s.nextStepTime < t + lookahead
    · set d := stepDuration cfg.bpm with hdd
      set s' : SchedState :=
        ⟨s.nextStepTime + d, (s.currentStep + 1) % 16,
         if (s.currentStep : ℤ) ≠ s.lastScheduledStep then (s.currentStep : ℤ)
         else s.lastScheduledStep⟩ with hs'
      have hstep : (t + lookahead - s'.nextStepTime) / d
          = (t + lookahead - s.nextStepTime) / d - 1 := by
        rw [hs']
        field_simp
        ring
      have hfuel' : (⌈(t + lookahead - s'.nextStepTime) / d⌉).toNat ≤ fuel := by
        rw [hstep, Int.ceil_sub_one]
        omega
      have hrec := ih s' hfuel'
      have hrun : (tickLoop cfg t (fuel + 1) s).1 = (tickLoop cfg t fuel s').1 := by
        simp only [tickLoop, if_pos hg]
      rw [hrun]
      exact hrec
    · simp only [tickLoop, if_neg hg]
      exact hg

theorem runTicks_spec (cfg : SchedCfg) (t0 : ℚ) (ticks : List ℚ) :
    ∀ (s : SchedState) (k : ℕ), SchedInv cfg t0 k s →
      ∃ m, SchedInv cfg t0 (k + m) (runTicks cfg ticks s).1 ∧
        (runTicks cfg ticks s).2 = (List.range' k m).map (dispatchAt cfg t0) := by
  induction ticks with
  | nil =>
    intro s k hk
    exact ⟨0, by simpa [runTicks] using hk, by simp [runTicks]⟩
  | cons t ts ih =>
    intro s k hk
    obtain ⟨m₁, h₁inv, h₁out⟩ := tickLoop_spec cfg t0 t (neededFuel cfg t s) s k hk
    obtain ⟨m₂, h₂inv, h₂out⟩ := ih _ (k + m₁) h₁inv
    refine ⟨m₁ + m₂, ?_, ?_⟩
    · show SchedInv cfg t0 (k + (m₁ + m₂)) (runTicks cfg ts (runTick cfg t s).1).1
      have : k + (m₁ + m₂) = k + m₁ + m₂ := by omega
      rw [this]
      exact h₂inv
    · show (runTick cfg t s).2 ++ (runTicks cfg ts (runTick cfg t s).1).2 = _
      rw [show runTick cfg t s = tickLoop cfg t (neededFuel cfg t s) s from rfl,
          h₁out, h₂out, ← List.map_append, List.range'_append_1]
      have : m₂ + m₁ = m₁ + m₂ := by omega
      rw [this]

/-- A fresh scheduler run dispatches a contiguous sequence of steps. -/
theorem liveDispatches_spec (cfg : SchedCfg) (t0 : ℚ) (ticks : List ℚ) :
    ∃ n, liveDispatches cfg t0 ticks = (List.range' 0 n).map (dispatchAt cfg t0) := by
  have hinit : SchedInv cfg t0 0 (initState t0) := by
    refine ⟨?_, rfl, rfl⟩
    show t0 + 1 / 20 = t0 + 1 / 20 + (0 : ℕ) * stepDuration cfg.bpm
    push_cast
    ring
  obtain ⟨m, -, hout⟩ := runTicks_spec cfg t0 ticks (initState t0) 0 hinit
  exact ⟨m, hout⟩

/-- C4: over any sequence of scheduler ticks from start, the steps
dispatched to synthesis are exactly the consecutive step indices modulo 16:
each step index is dispatched exactly once per pass through the pattern, in
order, with none repeated (the re-entry guard) and none skipped. -/
theorem steps_dispatched_once_per_pass (cfg : SchedCfg) (t0 : ℚ) (ticks : List ℚ) :
    ∃ n, (liveDispatches cfg t0 ticks).map Prod.fst
      = (List.range n).map (· % 16) := by
  obtain ⟨n, hn⟩ := liveDispatches_spec cfg t0 ticks
  refine ⟨n, ?_⟩
  rw [hn, List.range_eq_range', List.map_map]
  rfl

/-- C3: the `k`-th dispatched step of any run is scheduled at its unswung
grid time `(start) + k · stepDuration` plus exactly
`(swing/100) · stepDuration · 0.5` when `k` is odd and plus 0 when `k` is
even; for `swing = 0` consecutive steps are exactly `stepDuration` apart. -/
theorem swing_offset_schedule (cfg : SchedCfg) (t0 : ℚ) (ticks : List ℚ) :
    (∀ k (hk : k < (liveDispatches cfg t0 ticks).length),
      ((liveDispatches cfg t0 ticks).get ⟨k, hk⟩).2
        = t0 + 1 / 20 + k * stepDuration cfg.bpm
          + (if k % 2 = 1 then cfg.swing / 100 * stepDuration cfg.bpm * (1 / 2) else 0)) ∧
    (cfg.swing = 0 →
      ∀ k (hk1 : k + 1 < (liveDispatches cfg t0 ticks).length)
        (hk0 : k < (liveDispatches cfg t0 ticks).length),
        ((liveDispatches cfg t0 ticks).get ⟨k + 1, hk1⟩).2
            - ((liveDispatches cfg t0 ticks).get ⟨k, hk0⟩).2
          = stepDuration cfg.bpm) := by
  obtain ⟨n, hn⟩ := liveDispatches_spec cfg t0 ticks
  have hget : ∀ k (hk : k < (liveDispatches cfg t0 ticks).length),
      ((liveDispatches cfg t0 ticks).get ⟨k, hk⟩).2
        = t0 + 1 / 20 + k * stepDuration cfg.bpm
          + getSwingOffset (k % 16) cfg.swing (stepDuration cfg.bpm) := by
    intro k hk
    rw [List.get_of_eq hn ⟨k, hk⟩, List.get_map]
    simp only [List.get_range', Nat.zero_add, Nat.one_mul]
    rfl
  have hswing : ∀ k, getSwingOffset (k % 16) cfg.swing (stepDuration cfg.bpm)
      = (if k % 2 = 1 then cfg.swing / 100 * stepDuration cfg.bpm * (1 / 2) else 0) := by
    intro k
    unfold getSwingOffset
    rw [Nat.mod_mod_of_dvd k (by norm_num)]
  constructor
  · intro k hk
    rw [hget k hk, hswing k]
  · intro hsw k hk1 hk0
    rw [hget (k + 1) hk1, hget k hk0, hswing (k + 1), hswing k, hsw]
    push_cast
    by_cases h : k % 2 = 1 <;> by_cases h' : (k + 1) % 2 = 1 <;> simp [h, h'] <;> ring

/-- A single tick at clock reading 0.1 s dispatches exactly steps 0 and 1. -/
theorem liveDispatches_cfgSwing_eval :
    liveDispatches cfgSwing 0 twoStepTicks = [(0, 1 / 20), (1, 1 / 5)] := by
  have hceil : (⌈((1:ℚ) / 10 + lookahead - (initState 0).nextStepTime)
      / stepDuration cfgSwing.bpm⌉ : ℤ) = 2 := by
    rw [show ((1:ℚ) / 10 + lookahead - (initState 0).nextStepTime)
        / stepDuration cfgSwing.bpm = 6 / 5 by
      norm_num [initState, lookahead, stepDuration, cfgSwing]]
    rw [Int.ceil_eq_iff]
    constructor <;> norm_num
  have hfuel : neededFuel cfgSwing (1 / 10) (initState 0) = 2 := by
    unfold neededFuel
    rw [hceil]
    rfl
  simp only [liveDispatches, twoStepTicks, runTicks, runTick, hfuel]
  norm_num [tickLoop, initState, getSwingOffset, stepDuration, cfgSwing, lookahead]

/-- Witness for C3: at BPM 120 (`stepDuration = 1/8`), swing 40 and `t0 = 0`,
the second dispatched step (index 1, odd) is scheduled at
`0.05 + 1×0.125 + (40/100)×0.125×0.5 = 0.2` seconds. -/
theorem swing_offset_schedule_witness :
    ((liveDispatches cfgSwing 0 twoStepTicks).get
        ⟨1, by rw [liveDispatches_cfgSwing_eval]; norm_num⟩).2 = 1 / 5 := by
  have h := (swing_offset_schedule cfgSwing 0 twoStepTicks).1 1
    (by rw [liveDispatches_cfgSwing_eval]; norm_num)
  rw [h]
  norm_num [cfgSwing, stepDuration]

/-! ## Claim C1: render/live parity -/

theorem liveDispatches_cfgSolo_eval :
    liveDispatches cfgSolo 0 twoStepTicks = [(0, 1 / 20), (1, 7 / 40)] := by
  have hceil : (⌈((1:ℚ) / 10 + lookahead - (initState 0).nextStepTime)
      / stepDuration cfgSolo.bpm⌉ : ℤ) = 2 := by
    rw [show ((1:ℚ) / 10 + lookahead - (initState 0).nextStepTime)
        / stepDuration cfgSolo.bpm = 6 / 5 by
      norm_num [initState, lookahead, stepDuration, cfgSolo]]
    rw [Int.ceil_eq_iff]
    constructor <;> norm_num
  have hfuel : neededFuel cfgSolo (1 / 10) (initState 0) = 2 := by
    unfold neededFuel
    rw [hceil]
    rfl
  simp only [liveDispatches, twoStepTicks, runTicks, runTick, hfuel]
  norm_num [tickLoop, initState, getSwingOffset, stepDuration, cfgSolo, lookahead]

theorem liveEvents_cfgSwing_eval :
    liveEvents cfgSwing 0 twoStepTicks = [⟨1, .kick, 1 / 5, 4 / 5⟩] := by
  rw [liveEvents, liveDispatches_cfgSwing_eval]
  simp only [List.flatMap_cons, List.flatMap_nil, List.append_nil]
  simp +decide [scheduleStepEvents, drumEvent, cfgSwing, SchedCfg.drum, SchedCfg.synth,
    DrumPattern.get, DrumType.toName, TrackSettings.get, defaultTs, synthOff,
    noteTruthy, shouldPlayTrack, anySolo, TrackSettings.values, List.filterMap]

theorem liveEvents_cfgSolo_eval :
    liveEvents cfgSolo 0 twoStepTicks = [] := by
  rw [liveEvents, liveDispatches_cfgSolo_eval]
  simp only [List.flatMap_cons, List.flatMap_nil, List.append_nil]
  simp +decide [scheduleStepEvents, drumEvent, cfgSolo, SchedCfg.drum, SchedCfg.synth,
    DrumPattern.get, DrumType.toName, TrackSettings.get, soloSnareTs, defaultTs,
    synthOff, noteTruthy, shouldPlayTrack, anySolo, TrackSettings.values, List.filterMap]

theorem exportOffsets_cfgSwing_eval :
    exportOffsets 120 cfgSwing.drum cfgSwing.synth defaultTs ⟨1 / 2⟩ 1
      = [(1, .kick, 1 / 8, 4 / 5)] := by
  have hr16 : List.range 16 = [0,1,2,3,4,5,6,7,8,9,10,11,12,13,14,15] := rfl
  have hr1 : List.range 1 = [0] := rfl
  simp only [exportOffsets, exportEvents, hr1, hr16, List.flatMap_cons, List.flatMap_nil,
    List.append_nil]
  simp +decide [cfgSwing, SchedCfg.drum, SchedCfg.synth, DrumPattern.get,
    DrumType.toName, TrackSettings.get, defaultTs, synthOff, noteTruthy,
    List.filterMap]
  norm_num [stepDuration]

theorem exportOffsets_cfgSolo_eval :
    exportOffsets 120 cfgSolo.drum cfgSolo.synth soloSnareTs ⟨1 / 2⟩ 1
      = [(0, .hat, 0, 2 / 5)] := by
  have hr16 : List.range 16 = [0,1,2,3,4,5,6,7,8,9,10,11,12,13,14,15] := rfl
  have hr1 : List.range 1 = [0] := rfl
  simp only [exportOffsets, exportEvents, hr1, hr16, List.flatMap_cons, List.flatMap_nil,
    List.append_nil]
  simp +decide [cfgSolo, SchedCfg.drum, SchedCfg.synth, DrumPattern.get,
    DrumType.toName, TrackSettings.get, soloSnareTs, defaultTs, synthOff, noteTruthy,
    List.filterMap]

/-- C1 (code bug): the offline renderer does not reproduce the live
scheduler's event tuples.  At BPM 120, swing 40, kick on step 1, default
settings: the live scheduler fires the kick at offset `stepDuration +
(40/100)·stepDuration·0.5 = 3/20` from the first step while `exportToWav`
fires it at the unswung offset `1/8` — the exporter never adds the swing
term.  And with the snare soloed and the hat unmuted on step 0, the live
scheduler plays nothing (solo suppresses non-soloed tracks) while the
exporter still plays the hat — it only consults `muted`.  The amplitudes
agree, the times and audibility do not. -/
theorem export_live_parity_fails :
    liveOffsets cfgSwing 0 twoStepTicks = [(1, .kick, 3 / 20, 4 / 5)] ∧
    exportOffsets 120 cfgSwing.drum cfgSwing.synth defaultTs ⟨1 / 2⟩ 1
      = [(1, .kick, 1 / 8, 4 / 5)] ∧
    ((3 : ℚ) / 20) ≠ 1 / 8 ∧
    liveEvents cfgSolo 0 twoStepTicks = [] ∧
    exportOffsets 120 cfgSolo.drum cfgSolo.synth soloSnareTs ⟨1 / 2⟩ 1
      = [(0, .hat, 0, 2 / 5)] := by
  refine ⟨?_, exportOffsets_cfgSwing_eval, by norm_num, liveEvents_cfgSolo_eval,
    exportOffsets_cfgSolo_eval⟩
  rw [liveOffsets, liveEvents_cfgSwing_eval]
  norm_num

/-! ## Claim C9: WAV sample clamping and header round-trip -/

theorem clampSample_bounds (s : ℚ) : -1 ≤ clampSample s ∧ clampSample s ≤ 1 :=
  ⟨le_max_left _ _, max_le (by norm_num) (min_le_left _ _)⟩

/-- C9: every sample is hard-clamped before 16-bit conversion, so every
written 16-bit value lies in `[-32768, 32767]` (no wraparound), and the
44-byte header decodes back to the PCM tag 1, the buffer's channel count,
sample rate, the 16-bit depth and the data length
`frames × channels × 2` used at render time. -/
theorem wav_encoding (s : ℚ) (b : AudioBuffer)
    (hch : b.numberOfChannels < 2 ^ 16) (hsr : b.sampleRate < 2 ^ 32)
    (hdl : b.length * (b.numberOfChannels * 2) < 2 ^ 32) :
    (-32768 ≤ sampleToInt16 s ∧ sampleToInt16 s ≤ 32767) ∧
    (wavHeader b.numberOfChannels b.sampleRate b.length).length = 44 ∧
    decodeWavHeader (audioBufferToWav b)
      = some (1, b.numberOfChannels, b.sampleRate, 16,
        b.length * (b.numberOfChannels * 2)) := by
  obtain ⟨hc1, hc2⟩ := clampSample_bounds s
  refine ⟨?_, ?_, ?_⟩
  · unfold sampleToInt16 truncQ
    by_cases hneg : clampSample s < 0
    · have hv0 : clampSample s * 32768 ≤ 0 :=
        mul_nonpos_of_nonpos_of_nonneg (le_of_lt hneg) (by norm_num)
      have hv1 : (-32768 : ℚ) ≤ clampSample s * 32768 := by nlinarith
      have hnn : ¬(0 : ℚ) ≤ clampSample s * 32768 ∨ clampSample s * 32768 = 0 := by
        rcases lt_or_eq_of_le hv0 with h | h
        · exact Or.inl (not_le.mpr h)
        · exact Or.inr h
      constructor
      · simp only [hneg, if_true]
        by_cases hz : (0 : ℚ) ≤ clampSample s * 32768
        · rw [if_pos hz]
          have : (0 : ℤ) ≤ ⌊clampSample s * 32768⌋ := Int.floor_nonneg.mpr hz
          omega
        · rw [if_neg hz]
          have h1 : (((-32768 : ℤ) : ℚ)) ≤ ⌈clampSample s * 32768⌉ := by
            calc (((-32768 : ℤ) : ℚ)) ≤ clampSample s * 32768 := by exact_mod_cast hv1
            _ ≤ ⌈clampSample s * 32768⌉ := Int.le_ceil _
          exact_mod_cast h1
      · simp only [hneg, if_true]
        by_cases hz : (0 : ℚ) ≤ clampSample s * 32768
        · rw [if_pos hz]
          have h1 : (⌊clampSample s * 32768⌋ : ℚ) ≤ 0 :=
            le_trans (Int.floor_le _) hv0
          have : ⌊clampSample s * 32768⌋ ≤ 0 := by exact_mod_cast h1
          omega
        · rw [if_neg hz]
          have : ⌈clampSample s * 32768⌉ ≤ 0 := Int.ceil_le.mpr (by exact_mod_cast hv0)
          omega
    · have hge : (0 : ℚ) ≤ clampSample s := not_lt.mp hneg
      have hv0 : (0 : ℚ) ≤ clampSample s * 32767 := by positivity
      have hv1 : clampSample s * 32767 ≤ 32767 := by nlinarith
      simp only [hneg, if_false, if_pos hv0]
      constructor
      · have : (0 : ℤ) ≤ ⌊clampSample s * 32767⌋ := Int.floor_nonneg.mpr hv0
        omega
      · have h1 : (⌊clampSample s * 32767⌋ : ℚ) ≤ 32767 :=
          le_trans (Int.floor_le _) hv1
        exact_mod_cast h1
  · simp [wavHeader, asciiBytes, u32le, u16le]
  · have ha1 : asciiBytes "RIFF" = [82, 73, 70, 70] := rfl
    have ha2 : asciiBytes "WAVE" = [87, 65, 86, 69] := rfl
    have ha3 : asciiBytes "fmt " = [102, 109, 116, 32] := rfl
    have ha4 : asciiBytes "data" = [100, 97, 116, 97] := rfl
    simp only [audioBufferToWav, wavHeader, ha1, ha2, ha3, ha4, u32le, u16le,
      List.cons_append, List.nil_append]
    simp only [decodeWavHeader]
    refine congrArg some ?_
    have h16 : (16 : ℕ) % 256 + 256 * (16 / 256 % 256) = 16 := by norm_num
    refine Prod.ext ?_ (Prod.ext ?_ (Prod.ext ?_ (Prod.ext ?_ ?_))) <;> simp <;> omega

/-- Witness for C9 at a concrete stereo buffer (two frames, 44.1 kHz, one
out-of-range sample in each direction): the header decodes back to the
render configuration, and conversion of the out-of-range sample −2 stays
in the 16-bit range. -/
theorem wav_encoding_witness :
    decodeWavHeader (audioBufferToWav wBuf) = some (1, 2, 44100, 16, 8) ∧
    -32768 ≤ sampleToInt16 (-2) ∧ sampleToInt16 (-2) ≤ 32767 := by
  obtain ⟨⟨h1, h2⟩, -, h3⟩ :=
    wav_encoding (-2) wBuf (by norm_num [wBuf]) (by norm_num [wBuf]) (by norm_num [wBuf])
  exact ⟨h3, h1, h2⟩


end LofiLoop
